import Mathlib

/-!
Verification development for the Suikiii game server (`src/server.js`).

The server is translated into a shallow embedding:
* JS numbers used for coordinates, radii and velocities are modelled as `ℚ`
  (the server computes exact midpoints, sums and products of decimal
  constants; `Math.sqrt` comparisons `sqrt s < t` are modelled by the
  equivalent sign-aware squared comparison `0 < t ∧ s < t^2`).
* Integer-valued quantities (scores, combo counters, timestamps in ms)
  are modelled as `ℕ`, with timestamp differences taken in `ℤ` exactly as
  JS subtraction behaves.
* `Date.now()` / `Math.random()` are modelled as oracle parameters.
* `io.emit` / `socket.emit` side effects are modelled as returned
  message lists.
* The mutable module state (`gameState`, `bodiesMap`, `processedMerges`,
  `gameOverTimer`, `lastMergeTime`, `comboCount`, `playerQueues`) is a
  single explicit `ServerState` record threaded through the handlers.
-/

namespace Suikiii

/-- Game constant `BOARD_WIDTH = 800`. -/
def BOARD_WIDTH : ℚ := 800

/-- Game constant `GAME_OVER_LINE = 100`. -/
def GAME_OVER_LINE : ℚ := 100

/-- Game constant `BORDER_WIDTH = 4`. -/
def BORDER_WIDTH : ℚ := 4

/-- Game constant `MAX_LEVEL = 10`. -/
def MAX_LEVEL : Nat := 10

/-- Game constant `COMBO_WINDOW = 2000` (ms). -/
def COMBO_WINDOW : Int := 2000

/-- One entry of the `FRUITS` configuration table (the `color`/`image`
fields are display-only strings never read by the game logic and are
omitted). -/
structure Fruit where
  name : String
  level : Nat
  baseSize : ℚ
  sizeIncrement : ℚ
  collisionScale : ℚ
deriving DecidableEq, Repr, Inhabited


/-- The `FRUITS` table from `server.js`. -/
def FRUITS : List Fruit :=
  [ { name := "Grape", level := 1, baseSize := 26, sizeIncrement := 14.3, collisionScale := 1 },
    { name := "Strawberry", level := 2, baseSize := 26, sizeIncrement := 14.3, collisionScale := 1 },
    { name := "Lemon", level := 3, baseSize := 26, sizeIncrement := 14.3, collisionScale := 0.95 },
    { name := "Orange", level := 4, baseSize := 23.4, sizeIncrement := 14.3, collisionScale := 1 },
    { name := "Apple", level := 5, baseSize := 26, sizeIncrement := 14.3, collisionScale := 0.85 },
    { name := "Peach", level := 6, baseSize := 26, sizeIncrement := 14.3, collisionScale := 0.80 },
    { name := "Coconut", level := 7, baseSize := 26, sizeIncrement := 14.3, collisionScale := 1 },
    { name := "Melon", level := 8, baseSize := 33.8, sizeIncrement := 14.3, collisionScale := 0.95 },
    { name := "Pineapple", level := 9, baseSize := 26, sizeIncrement := 14.3, collisionScale := 1 },
    { name := "Watermelon", level := 10, baseSize := 26, sizeIncrement := 14.3, collisionScale := 1 } ]

/-- `FRUITS.find(f => f.level === n)`; levels 1..10 are all present, so the
default is never hit for the levels produced by the game. -/
def fruitForLevel (n : Nat) : Fruit :=
  ((FRUITS.filter (fun f => f.level == n)).headD default)

/-- `getRadius` from `server.js`.  The `|| 20` / `|| 11` / `|| 1.0`
fallbacks in the source guard against missing fields; every `FRUITS`
entry carries all three nonzero fields, so they never fire and the
function reduces to the formula below. -/
def getRadius (fruit : Fruit) : ℚ :=
  (fruit.baseSize + fruit.level * fruit.sizeIncrement) * fruit.collisionScale

/-- `getRandomBlock`, parameterized by the `Math.random()` draw. -/
def getRandomBlock (rand : ℚ) : Fruit :=
  let level := if rand < 0.35 then 1 else
               if rand < 0.60 then 2 else
               if rand < 0.80 then 3 else
               if rand < 0.95 then 4 else 5
  fruitForLevel level

/-- A live piece (`newBlock` object in `dropFruit` / `checkForMerges`).
The display-only `color`/`image` strings are omitted. -/
structure Block where
  uid : String
  x : ℚ
  y : ℚ
  vx : ℚ
  vy : ℚ
  radius : ℚ
  rotation : ℚ
  angularVelocity : ℚ
  name : String
  level : Nat
  baseSize : ℚ
  sizeIncrement : ℚ
  collisionScale : ℚ
  droppedBy : Option String
  createdAt : Nat
deriving DecidableEq, Repr, Inhabited

/-- Messages emitted through socket.io, with their target where the
source targets a single socket. -/
inductive Msg where
  | errorMsg (target : String) (message : String)
  | gameStateAll
  | mergeMsg (x y : ℚ) (points combo : Nat) (newFruit : String)
  | personalNextFruit (target : String) (fruit : Fruit)
  | gameOverAll (score highScore maxCombo : Nat)
  | saveHistory (target : String) (score highScore maxCombo : Nat)
deriving DecidableEq, Repr

/-- The combined mutable state of the server: the `gameState` object
plus the module-level variables that the handlers read and write
(`bodiesMap` is tracked as the list of uids that own a physics body;
`gameOverTimer` stores the arming time of the pending timeout).
`gameState.nextFruit` is never read after initialization (per-player
queues replaced it) and is omitted. -/
structure ServerState where
  blocks : List Block
  score : Nat
  highScore : Nat
  gameOver : Bool
  totalBlocks : Nat
  maxCombo : Nat
  combo : Nat
  contributors : List (String × Nat)
  bodiesMap : List String
  processedMerges : List String
  gameOverTimer : Option Nat
  lastMergeTime : Nat
  comboCount : Nat
  playerQueues : List (String × Fruit)
deriving DecidableEq, Repr

/-- Lookup in an association list (models `Map.get`). -/
def lookupAssoc (m : List (String × Fruit)) (k : String) : Option Fruit :=
  (m.find? (fun p => p.1 == k)).map (fun p => p.2)

/-- Update or insert in an association list (models `Map.set`). -/
def setAssoc (m : List (String × Fruit)) (k : String) (v : Fruit) : List (String × Fruit) :=
  if m.any (fun p => p.1 == k) then
    m.map (fun p => if p.1 == k then (k, v) else p)
  else m ++ [(k, v)]

/-- `if (!contributors[name]) contributors[name] = 0; contributors[name]++`.
A stored count is never 0 (it is bumped to at least 1 immediately), so the
JS falsy test coincides with key absence. -/
def bumpContributor (name : String) (contribs : List (String × Nat)) : List (String × Nat) :=
  if contribs.any (fun p => p.1 == name) then
    contribs.map (fun p => if p.1 == name then (p.1, p.2 + 1) else p)
  else contribs ++ [(name, 1)]

/-- The `newBlock` object literal constructed by `dropFruit` (lines
139–157): clamped x, spawn y just below the top border, zero velocity,
rank-derived radius. -/
def spawnedBlock (x : ℚ) (playerId : String) (nextBlock : Fruit) (uid : String)
    (now : Nat) : Block :=
  let radius := getRadius nextBlock
  { uid := uid,
    x := max (radius + BORDER_WIDTH) (min (BOARD_WIDTH - radius - BORDER_WIDTH) x),
    y := radius + BORDER_WIDTH + 20,
    vx := 0, vy := 0,
    radius := radius,
    rotation := 0, angularVelocity := 0,
    name := nextBlock.name, level := nextBlock.level,
    baseSize := nextBlock.baseSize, sizeIncrement := nextBlock.sizeIncrement,
    collisionScale := nextBlock.collisionScale,
    droppedBy := some playerId, createdAt := now }

/-- `dropFruit(x, playerId, fruitToDrop)` from `server.js`.  `uid` stands
for the generated `` `${Date.now()}-${Math.random()}` `` string and `now`
for `Date.now()`; `randFallback` is the `getRandomBlock()` draw used when
`fruitToDrop` is falsy.  Returns the updated state and the new block. -/
def dropFruit (x : ℚ) (playerId : String) (fruitToDrop : Option Fruit)
    (randFallback : Fruit) (uid : String) (now : Nat)
    (st : ServerState) : ServerState × Block :=
  let nextBlock := fruitToDrop.getD randFallback
  let newBlock : Block := spawnedBlock x playerId nextBlock uid now
  ({ st with
      bodiesMap := st.bodiesMap ++ [uid],
      blocks := st.blocks ++ [newBlock],
      totalBlocks := st.totalBlocks + 1 }, newBlock)

/-- The `socket.on('dropFruit')` handler.  `randPlayerFruit` models the
`getRandomBlock()` fallback used when the player has no queue entry, and
`newPersonal` the fresh `getRandomBlock()` draw stored as the player's
next piece. -/
def handleDropFruit (socketId : String) (x : ℚ) (playerName : Option String)
    (randPlayerFruit newPersonal : Fruit) (uid : String) (now : Nat)
    (st : ServerState) : ServerState × List Msg :=
  if st.gameOver then
    (st, [Msg.errorMsg socketId "Game is over"])
  else
    let name := match playerName with
      | some s => if s = "" then "TiiiKiii" else s
      | none => "TiiiKiii"
    let st1 := { st with contributors := bumpContributor name st.contributors }
    let playerFruit := (lookupAssoc st1.playerQueues socketId).getD randPlayerFruit
    let st2 := (dropFruit x socketId (some playerFruit) randPlayerFruit uid now st1).1
    let st3 := { st2 with playerQueues := setAssoc st2.playerQueues socketId newPersonal }
    (st3, [Msg.gameStateAll, Msg.personalNextFruit socketId newPersonal])

/-- The `socket.on('connection')` work on the shared state: a personal
next fruit is drawn and stored for the new socket; the snapshot (plus a
`gameOver` replay when the game is already over) is sent to it. -/
def handleConnect (socketId : String) (personal : Fruit)
    (st : ServerState) : ServerState × List Msg :=
  ({ st with playerQueues := setAssoc st.playerQueues socketId personal },
   [Msg.gameStateAll] ++
     (if st.gameOver then [Msg.gameOverAll st.score st.highScore st.maxCombo] else []))

/-- The `socket.on('restart')` handler.  `connected` is the list of
currently connected socket ids (iteration order of `io.sockets.sockets`)
and `freshFruit` models the `getRandomBlock()` draw per socket.
`playerQueues` entries of sockets that are no longer connected are left
in place, exactly as in the source. -/
def restart (connected : List String) (freshFruit : String → Fruit)
    (st : ServerState) : ServerState × List Msg :=
  let st1 : ServerState :=
    { blocks := [],
      score := 0,
      highScore := st.highScore,
      gameOver := false,
      totalBlocks := 0,
      maxCombo := 0,
      combo := 0,
      contributors := [],
      bodiesMap := [],
      processedMerges := [],
      gameOverTimer := none,
      lastMergeTime := 0,
      comboCount := 0,
      playerQueues := connected.foldl (fun q id => setAssoc q id (freshFruit id)) st.playerQueues }
  (st1, (connected.map (fun id => Msg.personalNextFruit id (freshFruit id))) ++ [Msg.gameStateAll])

/-- The combo-decay `setInterval` body (runs every ~100 ms). -/
def comboDecayTick (now : Nat) (st : ServerState) : ServerState :=
  if (now : Int) - (st.lastMergeTime : Int) > COMBO_WINDOW ∧ 0 < st.comboCount then
    { st with comboCount := 0, combo := 0 }
  else st

/-- The scoring/combo counters touched while resolving one merge:
module variables `lastMergeTime`, `comboCount` and the `gameState`
fields `combo`, `score`, `highScore`, `maxCombo`. -/
structure ScoreState where
  lastMergeTime : Nat
  comboCount : Nat
  combo : Nat
  score : Nat
  highScore : Nat
  maxCombo : Nat
deriving DecidableEq, Repr, Inhabited

/-- Lines 211–232 of `checkForMerges`: award points for a resolved merge
producing a piece of level `newLevel` at time `now`.
`Math.floor(basePoints * (1 + comboCount * 0.1))` is modelled in exact
arithmetic as `basePoints * (10 + comboCount) / 10` with `ℕ` floor
division.  Returns the awarded points together with the updated
counters. -/
def scoreMerge (newLevel : Nat) (now : Nat) (s : ScoreState) : Nat × ScoreState :=
  let basePoints := 2 ^ newLevel * 10
  let timeSinceLastMerge : Int := (now : Int) - (s.lastMergeTime : Int)
  if timeSinceLastMerge < COMBO_WINDOW ∧ 0 < s.comboCount then
    let c := s.comboCount + 1
    let points := basePoints * (10 + c) / 10
    (points,
      { lastMergeTime := now, comboCount := c, combo := c,
        score := s.score + points,
        highScore := if s.score + points > s.highScore then s.score + points else s.highScore,
        maxCombo := if c > s.maxCombo then c else s.maxCombo })
  else
    (basePoints,
      { lastMergeTime := now, comboCount := 1, combo := 1,
        score := s.score + basePoints,
        highScore := if s.score + basePoints > s.highScore then s.score + basePoints else s.highScore,
        maxCombo := if 1 > s.maxCombo then 1 else s.maxCombo })

/-- Scoring rule as worded by the specification (§4.3): basePoints =
2^newRank × 10; within the combo window with a live combo, increment
`comboCount` and award `floor(basePoints × (1 + comboCount × 0.1))`
(floor of an exact rational); otherwise reset `comboCount` to 1 and
award basePoints; then score += points, highScore = max(highScore,
score), maxCombo = max(maxCombo, comboCount). -/
def specResolveMerge (newRank : Nat) (now : Nat) (s : ScoreState) : Nat × ScoreState :=
  let basePoints : Nat := 2 ^ newRank * 10
  if (now : Int) - (s.lastMergeTime : Int) < 2000 ∧ 0 < s.comboCount then
    let c := s.comboCount + 1
    let points := Nat.floor ((basePoints : ℚ) * (1 + (c : ℚ) * 0.1))
    (points,
      { lastMergeTime := now, comboCount := c, combo := c,
        score := s.score + points,
        highScore := max s.highScore (s.score + points),
        maxCombo := max s.maxCombo c })
  else
    (basePoints,
      { lastMergeTime := now, comboCount := 1, combo := 1,
        score := s.score + basePoints,
        highScore := max s.highScore (s.score + basePoints),
        maxCombo := max s.maxCombo 1 })

/-- Lines 193–199 of `checkForMerges`: the pair qualifies when the
levels agree, are below `MAX_LEVEL`, and
`Math.sqrt(dx*dx + dy*dy) < (b1.radius + b2.radius) * 1.05`.
Since `sqrt s < t ↔ 0 < t ∧ s < t^2` for `s ≥ 0`, the square-root
comparison is modelled squared with the sign guard. -/
def canMerge (b1 b2 : Block) : Bool :=
  b1.level == b2.level && b1.level < MAX_LEVEL &&
    (decide (0 < (b1.radius + b2.radius) * (1.05 : ℚ)) &&
     decide ((b1.x - b2.x) ^ 2 + (b1.y - b2.y) ^ 2 < ((b1.radius + b2.radius) * (1.05 : ℚ)) ^ 2))

/-- Observation record for one resolved merge: the indices and values of
the two source pieces, the merged block that replaces them, and the
awarded points / combo count that were broadcast in the `merge`
notification. -/
structure MergeRec where
  i : Nat
  j : Nat
  b1 : Block
  b2 : Block
  newBlock : Block
  points : Nat
  comboAfter : Nat
deriving DecidableEq, Repr

/-- Loop state of one `checkForMerges` pass: `toRemove` (JS `Set` of
indices, in insertion order), `toAdd`, the dedup set `processedMerges`
(JS `Set` of strings, insertion order), the scoring counters, the next
oracle index, and the `merges` observation log. -/
structure ScanState where
  toRemove : List Nat
  toAdd : List Block
  merges : List MergeRec
  processedMerges : List String
  scoring : ScoreState
  oracleIdx : Nat
deriving DecidableEq, Repr

/-- Lines 200–268 of `checkForMerges`: resolve the qualifying pair
`(i, j)`.  The oracle supplies the `Date.now()` timestamp and the fresh
uid of the merged block for each successive merge of the pass. -/
def resolvePair (oracle : Nat → Nat × String) (i j : Nat) (b1 b2 : Block)
    (st : ScanState) : ScanState :=
  let key := b1.uid ++ "-" ++ b2.uid
  let od := oracle st.oracleIdx
  let now := od.1
  let newLevel := b1.level + 1
  let newFruit := fruitForLevel newLevel
  let newRadius := getRadius newFruit
  let mergeX := (b1.x + b2.x) / 2
  let mergeY := (b1.y + b2.y) / 2
  let ps := scoreMerge newLevel now st.scoring
  let mergedBlock : Block :=
    { uid := od.2,
      x := mergeX, y := mergeY,
      vx := (b1.vx + b2.vx) / 2, vy := -3,
      radius := newRadius,
      rotation := 0, angularVelocity := 0,
      name := newFruit.name, level := newLevel,
      baseSize := newFruit.baseSize, sizeIncrement := newFruit.sizeIncrement,
      collisionScale := newFruit.collisionScale,
      droppedBy := none, createdAt := now }
  { toRemove := st.toRemove ++ [i, j],
    toAdd := st.toAdd ++ [mergedBlock],
    merges := st.merges ++ [⟨i, j, b1, b2, mergedBlock, ps.1, ps.2.comboCount⟩],
    processedMerges := st.processedMerges ++ [key],
    scoring := ps.2,
    oracleIdx := st.oracleIdx + 1 }

/-- The inner `for j` loop of `checkForMerges`, scanning `sub`, the
suffix of the block list starting at index `j` (the list itself is not
mutated during the scan).  A resolved merge executes `break`. -/
def innerLoop (oracle : Nat → Nat × String) (i : Nat) (b1 : Block) :
    Nat → List Block → ScanState → ScanState
  | _, [], st => st
  | j, b2 :: rest, st =>
    if st.toRemove.contains j then innerLoop oracle i b1 (j + 1) rest st
    else if canMerge b1 b2 then
      if st.processedMerges.contains (b1.uid ++ "-" ++ b2.uid) then
        innerLoop oracle i b1 (j + 1) rest st
      else resolvePair oracle i j b1 b2 st
    else innerLoop oracle i b1 (j + 1) rest st

/-- The outer `for i` loop of `checkForMerges`, scanning the suffix of
the block list starting at index `i`. -/
def outerLoop (oracle : Nat → Nat × String) :
    Nat → List Block → ScanState → ScanState
  | _, [], st => st
  | i, b1 :: rest, st =>
    let st1 := if st.toRemove.contains i then st
               else innerLoop oracle i b1 (i + 1) rest st
    outerLoop oracle (i + 1) rest st1

/-- Structural model of the JS `String.prototype.split` with the
one-character separator `'-'`. -/
def splitCharsOnDash : List Char → List (List Char)
  | [] => [[]]
  | c :: cs =>
    if c = '-' then [] :: splitCharsOnDash cs
    else
      match splitCharsOnDash cs with
      | [] => [[c]]
      | t :: ts => (c :: t) :: ts

/-- JS `key.split('-')`. -/
def splitDash (s : String) : List String :=
  (splitCharsOnDash s.data).map (fun cs => String.mk cs)

/-- Lines 283–291 of `checkForMerges`: rebuild `processedMerges`,
keeping a key unless one of its first two `split('-')` fragments equals
a removed uid.  (JS `uids[1]` is `undefined` when there is no dash; a
merge key always contains at least one dash, and removed uids are
nonempty strings, so the `""` defaults below never change the
outcome.) -/
def purgeMerges (pm : List String) (removedUids : List String) : List String :=
  pm.filter (fun key =>
    let uids := splitDash key
    !(removedUids.contains (uids.getD 0 "")) && !(removedUids.contains (uids.getD 1 "")))

/-- `gameState.blocks.filter((_, idx) => toRemove.has(idx))`, with `k`
the index of the head of `l` in the original list. -/
def selectIdx (rem : List Nat) : Nat → List Block → List Block
  | _, [] => []
  | k, b :: bs =>
    if rem.contains k then b :: selectIdx rem (k + 1) bs
    else selectIdx rem (k + 1) bs

/-- `gameState.blocks.filter((_, idx) => !toRemove.has(idx))`. -/
def rejectIdx (rem : List Nat) : Nat → List Block → List Block
  | _, [] => []
  | k, b :: bs =>
    if rem.contains k then rejectIdx rem (k + 1) bs
    else b :: rejectIdx rem (k + 1) bs

/-- The scan state at the top of a `checkForMerges` pass: empty
`toRemove`/`toAdd`, the dedup set and scoring counters carried over from
the server state. -/
def initScan (gs : ServerState) : ScanState :=
  { toRemove := [], toAdd := [], merges := [],
    processedMerges := gs.processedMerges,
    scoring :=
      { lastMergeTime := gs.lastMergeTime, comboCount := gs.comboCount,
        combo := gs.combo, score := gs.score, highScore := gs.highScore,
        maxCombo := gs.maxCombo },
    oracleIdx := 0 }

/-- `checkForMerges` from `server.js`: the pairwise scan followed by the
removal / dedup-purge / insertion phase (skipped when no merge was
resolved, as in the source).  Returns the updated server state together
with the observation log of resolved merges. -/
def checkForMerges (oracle : Nat → Nat × String) (gs : ServerState) :
    ServerState × List MergeRec :=
  let st := outerLoop oracle 0 gs.blocks (initScan gs)
  let gs1 : ServerState :=
    { gs with
        score := st.scoring.score, highScore := st.scoring.highScore,
        maxCombo := st.scoring.maxCombo, combo := st.scoring.combo,
        comboCount := st.scoring.comboCount, lastMergeTime := st.scoring.lastMergeTime,
        processedMerges := st.processedMerges }
  if st.toRemove.isEmpty then (gs1, st.merges)
  else
    let removedUids := (selectIdx st.toRemove 0 gs.blocks).map (fun b => b.uid)
    ({ gs1 with
        bodiesMap := (gs.bodiesMap.filter (fun u => !(removedUids.contains u)))
          ++ st.toAdd.map (fun b => b.uid),
        processedMerges := purgeMerges st.processedMerges removedUids,
        blocks := rejectIdx st.toRemove 0 gs.blocks ++ st.toAdd }, st.merges)

/-- The game-over monitor state: `gameState.gameOver` plus the pending
`gameOverTimer`, recorded as the time at which `setTimeout(…, 3000)` was
armed.  The source never nulls the handle inside the fired callback; the
flag `gameOver` is what stops the simulation. -/
structure GOState where
  gameOver : Bool
  timer : Option Nat
deriving DecidableEq, Repr

/-- Observation of one simulation tick for the game-over monitor: the
time, the current block list, the set of uids owning a physics body, and
the set of uids whose body reports `isSleeping`. -/
structure GOEvent where
  now : Nat
  blocks : List Block
  bodyUids : List String
  sleeping : List String
deriving Repr

/-- Lines 316–326 of `checkGameOver`: blocks with a live body whose top
edge is above `GAME_OVER_LINE` and which are settled (speed `< 0.3`,
modelled squared, or a sleeping body). -/
def settledDangerBlocks (e : GOEvent) : List Block :=
  e.blocks.filter (fun b =>
    e.bodyUids.contains b.uid &&
    decide (b.y - b.radius < GAME_OVER_LINE) &&
    (decide (b.vx ^ 2 + b.vy ^ 2 < (0.09 : ℚ)) || e.sleeping.contains b.uid))

/-- The pending `setTimeout` callback: it runs (between ticks) once
3000 ms have elapsed since arming, unless it was cancelled, and sets
`gameOver`. -/
def fireIfDue (now : Nat) (st : GOState) : GOState :=
  match st.timer with
  | some armedAt => if armedAt + 3000 ≤ now then { st with gameOver := true } else st
  | none => st

/-- Lines 328–367 of `checkGameOver` (the physics loop returns before
calling it when `gameOver` is set, hence the leading guard): arm the
grace timer on a settled violation, cancel it otherwise. -/
def checkGameOverTick (now : Nat) (hasViolation : Bool) (st : GOState) : GOState :=
  if st.gameOver then st
  else if hasViolation then
    match st.timer with
    | none => { st with timer := some now }
    | some _ => st
  else
    match st.timer with
    | some _ => { st with timer := none }
    | none => st

/-- One scheduler round at time `e.now`: any due timer callback runs
first (the event loop interleaves it between ticks), then the tick's
`checkGameOver`. -/
def goStep (e : GOEvent) (st : GOState) : GOState :=
  checkGameOverTick e.now (!(settledDangerBlocks e).isEmpty) (fireIfDue e.now st)

/-- Run the game-over monitor over a sequence of ticks. -/
def goRun (es : List GOEvent) (st : GOState) : GOState :=
  es.foldl (fun s e => goStep e s) st

/-- Session bookkeeping: the connected socket ids in `io.sockets.sockets`
insertion order, and the module variable `firstClientId`. -/
structure SessionState where
  connected : List String
  firstClientId : Option String
deriving DecidableEq, Repr

/-- The `io.on('connection')` designation logic (lines 458–464). -/
def connectStep (id : String) (s : SessionState) : SessionState :=
  { connected := s.connected ++ [id],
    firstClientId := match s.firstClientId with
      | none => some id
      | some c => some c }

/-- The `socket.on('disconnect')` handler (lines 578–595). -/
def disconnectStep (id : String) (s : SessionState) : SessionState :=
  let remaining := s.connected.filter (fun c => !(c == id))
  { connected := remaining,
    firstClientId :=
      if s.firstClientId = some id then
        match remaining with
        | [] => none
        | h :: _ => some h
      else s.firstClientId }

/-- Lines 335–359 of the game-over timer callback: broadcast `gameOver`
and send `saveHistory` to `firstClientId`, revalidating/reassigning the
designation first; both are skipped when no client is connected. -/
def gameOverFireStep (score highScore maxCombo : Nat) (s : SessionState) :
    SessionState × List Msg :=
  match s.connected with
  | [] => (s, [])
  | h :: _ =>
    let first := match s.firstClientId with
      | some c => if s.connected.contains c then c else h
      | none => h
    ({ s with firstClientId := some first },
     [Msg.gameOverAll score highScore maxCombo,
      Msg.saveHistory first score highScore maxCombo])

/-- Events that touch the designation. -/
inductive SessEvent where
  | connect (id : String)
  | disconnect (id : String)
  | goFire
deriving DecidableEq, Repr

/-- Transition of the session bookkeeping under one event. -/
def sessStep : SessEvent → SessionState → SessionState
  | .connect id, s => connectStep id s
  | .disconnect id, s => disconnectStep id s
  | .goFire, s => (gameOverFireStep 0 0 0 s).1

/-- Run the session bookkeeping from a state over a list of events. -/
def sessRun (es : List SessEvent) (s : SessionState) : SessionState :=
  es.foldl (fun s e => sessStep e s) s

/-- Initial session state at process start: no sockets, no designated
recorder. -/
def sessInit : SessionState := { connected := [], firstClientId := none }

/-- A fully-violated grace window for a timer armed at time `t`: every
observed tick strictly before `t + 3000` still saw a violation, and some
tick at or after `t + 3000` occurred (so the timer fired). -/
def CompleteFrom (t : Nat) (es : List GOEvent) : Prop :=
  (∀ e ∈ es, e.now < t + 3000 → (settledDangerBlocks e).isEmpty = false) ∧
  ∃ e ∈ es, t + 3000 ≤ e.now

/-- A grace window fully contained in the trace: a violating tick at
time `t` armed the timer, every tick in `[t, t + 3000)` still saw a
violation, and a tick at or after `t + 3000` occurred. -/
def FullWindow (t : Nat) (es : List GOEvent) : Prop :=
  (∃ e ∈ es, e.now = t ∧ (settledDangerBlocks e).isEmpty = false) ∧
  (∀ e ∈ es, t ≤ e.now → e.now < t + 3000 → (settledDangerBlocks e).isEmpty = false) ∧
  (∃ e ∈ es, t + 3000 ≤ e.now)

/-- The history-recorder designation invariant: with no session
connected the designation is cleared, and with at least one session
connected exactly the designated `firstClientId` is a live session. -/
def recorderInv (s : SessionState) : Prop :=
  (s.connected = [] → s.firstClientId = none) ∧
  (s.connected ≠ [] → ∃ c, s.firstClientId = some c ∧ c ∈ s.connected)

/-- The indices (source pieces) consumed by a list of merge records, in
resolution order (`toRemove` insertion order: `i` then `j` per merge). -/
def pairIdxs : List MergeRec → List Nat
  | [] => []
  | m :: ms => m.i :: m.j :: pairIdxs ms

/-- Well-formedness of one merge observation with respect to the block
list being scanned: the indices point at the two (distinct) source
pieces, the pair satisfied the merge test, and the merged block has the
next rank and sits at the sources' midpoint. -/
def MergeRecOK (blocks : List Block) (m : MergeRec) : Prop :=
  blocks[m.i]? = some m.b1 ∧ blocks[m.j]? = some m.b2 ∧ m.i < m.j ∧
  canMerge m.b1 m.b2 = true ∧
  m.newBlock.level = m.b1.level + 1 ∧
  m.newBlock.x = (m.b1.x + m.b2.x) / 2 ∧ m.newBlock.y = (m.b1.y + m.b2.y) / 2

/-- Invariant threaded through the `checkForMerges` scan: `toRemove` is
exactly the indices consumed by the logged merges (hence each piece is
consumed at most once), `toAdd` is exactly the logged merged blocks,
every logged merge is well-formed, and a live combo stays live. -/
def ScanInv (blocks : List Block) (c0 : Nat) (st : ScanState) : Prop :=
  st.toRemove = pairIdxs st.merges ∧
  st.toAdd = st.merges.map (fun m => m.newBlock) ∧
  st.toRemove.Nodup ∧
  (∀ m ∈ st.merges, MergeRecOK blocks m) ∧
  (0 < c0 → 0 < st.scoring.comboCount)

/-- Test fixture: a level-1 piece as spawned by `dropFruit` (uid of the
`Date.now()-Math.random()` shape, radius `(26 + 1·14.3)·1 = 40.3`). -/
def b1X : Block :=
  { uid := "10-1", x := 100, y := 900, vx := 0, vy := 0, radius := 40.3,
    rotation := 0, angularVelocity := 0, name := "Grape", level := 1,
    baseSize := 26, sizeIncrement := 14.3, collisionScale := 1,
    droppedBy := some "p1", createdAt := 0 }

/-- Test fixture: a second level-1 piece 50 px away, close enough to
merge (50 < 80.6 · 1.05). -/
def b2X : Block := { b1X with uid := "20-1", x := 150 }

/-- Test fixture: a server state holding the two touching level-1
pieces. -/
def gsX : ServerState :=
  { blocks := [b1X, b2X], score := 0, highScore := 0, gameOver := false,
    totalBlocks := 2, maxCombo := 0, combo := 0, contributors := [],
    bodiesMap := ["10-1", "20-1"], processedMerges := [],
    gameOverTimer := none, lastMergeTime := 0, comboCount := 0,
    playerQueues := [] }

/-- Test fixture: oracle for `Date.now()` / merged-block uid draws. -/
def oracleX : Nat → Nat × String := fun _ => (5000, "77-3")

/-- The merged block produced by running `checkForMerges` on `gsX`:
level 2, radius `(26 + 2·14.3)·1 = 54.6`, at the midpoint. -/
def mX : Block :=
  { uid := "77-3", x := 125, y := 900, vx := 0, vy := -3, radius := 54.6,
    rotation := 0, angularVelocity := 0, name := "Strawberry", level := 2,
    baseSize := 26, sizeIncrement := 14.3, collisionScale := 1,
    droppedBy := none, createdAt := 5000 }

/-- The observation record of the single merge resolved on `gsX`. -/
def recX : MergeRec := ⟨0, 1, b1X, b2X, mX, 40, 1⟩

/-- The server state after running `checkForMerges` on `gsX`. -/
def gsX' : ServerState :=
  { blocks := [mX], score := 40, highScore := 40, gameOver := false,
    totalBlocks := 2, maxCombo := 1, combo := 1, contributors := [],
    bodiesMap := ["77-3"], processedMerges := ["10-1-20-1"],
    gameOverTimer := none, lastMergeTime := 5000, comboCount := 1,
    playerQueues := [] }

/-- Test fixture: a settled piece whose top edge (`50 − 40.3 = 9.7`) is
above the danger line. -/
def bDangerX : Block := { b1X with y := 50 }

/-- Test fixture: a monitor tick at t = 0 observing the settled danger
piece. -/
def goEvX : GOEvent :=
  { now := 0, blocks := [bDangerX], bodyUids := ["10-1"], sleeping := [] }

/-- Test fixture: the same observation 3000 ms later. -/
def goEvX2 : GOEvent := { goEvX with now := 3000 }

lemma canMergeX : canMerge b1X b2X = true := by
  simp only [canMerge, b1X, b2X, MAX_LEVEL, Bool.and_eq_true, beq_iff_eq,
    decide_eq_true_eq]
  norm_num

lemma scoreMergeX : scoreMerge 2 5000 ⟨0, 0, 0, 0, 0, 0⟩ = (40, ⟨5000, 1, 1, 40, 40, 1⟩) := by
  norm_num [scoreMerge, COMBO_WINDOW]

lemma purgeMergesX : purgeMerges ["10-1-20-1"] ["10-1", "20-1"] = ["10-1-20-1"] := by
  decide

lemma lookupAssoc_cons_ne (ak : String) (av : Fruit) (t : List (String × Fruit))
    (k : String) (h : ak ≠ k) :
    lookupAssoc ((ak, av) :: t) k = lookupAssoc t k := by
  unfold lookupAssoc
  rw [List.find?_cons_of_neg]
  simp [h]

lemma lookupAssoc_setAssoc_self (m : List (String × Fruit)) (k : String) (v : Fruit) :
    lookupAssoc (setAssoc m k v) k = some v := by
  induction m with
  | nil => simp [setAssoc, lookupAssoc]
  | cons a t ih =>
    rcases a with ⟨ak, av⟩
    by_cases h : ak = k
    · subst h
      simp [setAssoc, lookupAssoc]
    · by_cases h2 : t.any (fun p => p.1 == k)
      · have hs : setAssoc ((ak, av) :: t) k v
            = (ak, av) :: (t.map (fun p => if p.1 == k then (k, v) else p)) := by
          simp [setAssoc, h2, h]
        have ht : setAssoc t k v = t.map (fun p => if p.1 == k then (k, v) else p) := by
          simp [setAssoc, h2]
        rw [hs, lookupAssoc_cons_ne _ _ _ _ h, ← ht]
        exact ih
      · have hs : setAssoc ((ak, av) :: t) k v = (ak, av) :: (t ++ [(k, v)]) := by
          simp [setAssoc, h2, h]
        have ht : setAssoc t k v = t ++ [(k, v)] := by
          simp [setAssoc, h2]
        rw [hs, lookupAssoc_cons_ne _ _ _ _ h, ← ht]
        exact ih

lemma stringAppendX : "10-1" ++ "-" ++ "20-1" = "10-1-20-1" := rfl

lemma checkForMergesX : checkForMerges oracleX gsX = (gsX', [recX]) := by
  simp only [checkForMerges, initScan, gsX, outerLoop, innerLoop]
  norm_num [canMerge, Bool.and_eq_true, beq_iff_eq, decide_eq_true_eq, MAX_LEVEL,
    oracleX, resolvePair, scoreMerge, COMBO_WINDOW, fruitForLevel, FRUITS,
    getRadius, stringAppendX, purgeMergesX, selectIdx, rejectIdx, gsX', recX, mX,
    b1X, b2X]

/-- Floor bridge between the exact-rational reading of
`Math.floor(basePoints * (1 + c * 0.1))` and natural floor division. -/
lemma floor_combo_points (bp c : ℕ) :
    Nat.floor ((bp : ℚ) * (1 + (c : ℚ) * 0.1)) = bp * (10 + c) / 10 := by
  have h01 : (0.1 : ℚ) = 1 / 10 := by norm_num
  have h1 : ((bp : ℚ) * (1 + (c : ℚ) * 0.1)) = ((bp * (10 + c) : ℕ) : ℚ) / ((10 : ℕ) : ℚ) := by
    rw [h01]
    push_cast
    ring
  rw [h1, Rat.natFloor_natCast_div_natCast]

/-- The JS `score > highScore ? score : highScore` update is a `max`. -/
lemma if_gt_eq_max (a b : ℕ) : (if a > b then a else b) = max b a := by
  split <;> omega

/-- C3: the scoring-and-combo update performed for each resolved merge
(lines 211–232 of `checkForMerges`, embedded as `scoreMerge` and invoked
by `resolvePair`) coincides with the specification's rule: basePoints =
2^newRank·10; inside the 2000 ms window with comboCount > 0 the combo is
incremented and `floor(basePoints · (1 + comboCount · 0.1))` points are
awarded (with the incremented count), otherwise the combo resets to 1
and basePoints are awarded; then score increases by the award,
highScore = max(highScore, score) and maxCombo = max(maxCombo,
comboCount). -/
theorem scoreMerge_matches_spec (newLevel now : Nat) (s : ScoreState) :
    scoreMerge newLevel now s = specResolveMerge newLevel now s := by
  by_cases h : (now : Int) - (s.lastMergeTime : Int) < 2000 ∧ 0 < s.comboCount
  · have hc : (now : Int) - (s.lastMergeTime : Int) < COMBO_WINDOW ∧ 0 < s.comboCount := by
      simpa [COMBO_WINDOW] using h
    simp only [scoreMerge, specResolveMerge, if_pos h, if_pos hc, floor_combo_points,
      if_gt_eq_max]
  · have hc : ¬ ((now : Int) - (s.lastMergeTime : Int) < COMBO_WINDOW ∧ 0 < s.comboCount) := by
      simpa [COMBO_WINDOW] using h
    simp only [scoreMerge, specResolveMerge, if_neg h, if_neg hc, if_gt_eq_max]

/-- C2 (counterexample): the restart handler does not preserve the
contributors map; at a state whose contributors map holds
`alice ↦ 3`, the state after restart holds an empty contributors map,
refuting the claim that the contributors map is unchanged across a
restart. -/
theorem restart_clears_contributors_counterexample :
    ((restart [] (fun _ => default) { gsX with contributors := [("alice", 3)] }).1).contributors ≠
      ({ gsX with contributors := [("alice", 3)] } : ServerState).contributors := by
  simp [restart]

/-- C2 (amended): after a restart, `highScore` is preserved; `blocks`
is empty; `score`, `totalBlocks`, `maxCombo`, `combo`, `comboCount` are
zero; `gameOver` is false; the merge-dedup set is empty; the pending
game-over timer is cancelled — but the contributors map is reset to
empty rather than preserved. -/
theorem restart_resets_state (connected : List String) (freshFruit : String → Fruit)
    (st : ServerState) :
    ((restart connected freshFruit st).1).highScore = st.highScore ∧
    ((restart connected freshFruit st).1).blocks = [] ∧
    ((restart connected freshFruit st).1).score = 0 ∧
    ((restart connected freshFruit st).1).totalBlocks = 0 ∧
    ((restart connected freshFruit st).1).maxCombo = 0 ∧
    ((restart connected freshFruit st).1).combo = 0 ∧
    ((restart connected freshFruit st).1).comboCount = 0 ∧
    ((restart connected freshFruit st).1).gameOver = false ∧
    ((restart connected freshFruit st).1).processedMerges = [] ∧
    ((restart connected freshFruit st).1).gameOverTimer = none ∧
    ((restart connected freshFruit st).1).lastMergeTime = 0 ∧
    ((restart connected freshFruit st).1).bodiesMap = [] ∧
    ((restart connected freshFruit st).1).contributors = [] := by
  refine ⟨rfl, rfl, rfl, rfl, rfl, rfl, rfl, rfl, rfl, rfl, rfl, rfl, rfl⟩

/-- C7: a `dropFruit` request arriving while `gameOver` is true leaves
the entire server state unchanged (blocks, score, totalBlocks,
contributors, per-player queues included) and sends exactly one error
notification to the requesting socket. -/
theorem dropFruit_rejected_when_gameOver (socketId : String) (x : ℚ)
    (playerName : Option String) (randPlayerFruit newPersonal : Fruit)
    (uid : String) (now : Nat) (st : ServerState) (h : st.gameOver = true) :
    handleDropFruit socketId x playerName randPlayerFruit newPersonal uid now st =
      (st, [Msg.errorMsg socketId "Game is over"]) := by
  simp [handleDropFruit, h]

/-- Closed witness for `dropFruit_rejected_when_gameOver` at a concrete
game-over state. -/
theorem dropFruit_rejected_when_gameOver_witness :
    ({ gsX with gameOver := true } : ServerState).gameOver = true ∧
    handleDropFruit "s1" 400 none default default "30-1" 1 { gsX with gameOver := true } =
      ({ gsX with gameOver := true }, [Msg.errorMsg "s1" "Game is over"]) :=
  ⟨rfl, dropFruit_rejected_when_gameOver "s1" 400 none default default "30-1" 1 _ rfl⟩

/-- C10: a `dropFruit` request accepted while `gameOver` is false always
succeeds: the block list and `totalBlocks` each grow by exactly one, a
fresh personal next piece is stored for the requesting socket, the
shared snapshot is broadcast and the socket is privately notified of its
new piece; when the socket has no queue entry, the spawned block falls
back to the freshly drawn random fruit. -/
theorem dropFruit_accepted_spawns_one (socketId : String) (x : ℚ)
    (playerName : Option String) (randPlayerFruit newPersonal : Fruit)
    (uid : String) (now : Nat) (st : ServerState) (h : st.gameOver = false) :
    ((handleDropFruit socketId x playerName randPlayerFruit newPersonal uid now st).1).blocks.length
        = st.blocks.length + 1 ∧
    ((handleDropFruit socketId x playerName randPlayerFruit newPersonal uid now st).1).totalBlocks
        = st.totalBlocks + 1 ∧
    lookupAssoc ((handleDropFruit socketId x playerName randPlayerFruit newPersonal uid now st).1).playerQueues socketId
        = some newPersonal ∧
    (handleDropFruit socketId x playerName randPlayerFruit newPersonal uid now st).2
        = [Msg.gameStateAll, Msg.personalNextFruit socketId newPersonal] ∧
    (lookupAssoc st.playerQueues socketId = none →
      ∃ b : Block,
        ((handleDropFruit socketId x playerName randPlayerFruit newPersonal uid now st).1).blocks
            = st.blocks ++ [b] ∧
        b.level = randPlayerFruit.level ∧ b.name = randPlayerFruit.name) := by
  refine ⟨?_, ?_, ?_, ?_, ?_⟩
  · simp [handleDropFruit, h, dropFruit]
  · simp [handleDropFruit, h, dropFruit]
  · simp [handleDropFruit, h, dropFruit, lookupAssoc_setAssoc_self]
  · simp [handleDropFruit, h]
  · intro hq
    refine ⟨spawnedBlock x socketId randPlayerFruit uid now, ?_, rfl, rfl⟩
    simp [handleDropFruit, h, dropFruit, hq]

/-- Closed witness for `dropFruit_accepted_spawns_one`: a drop on the
fixture state (whose queue map is empty, exercising the fallback). -/
theorem dropFruit_accepted_spawns_one_witness :
    gsX.gameOver = false ∧
    ((handleDropFruit "s1" 400 none default default "30-1" 1 gsX).1).blocks.length
        = gsX.blocks.length + 1 ∧
    lookupAssoc ((handleDropFruit "s1" 400 none default default "30-1" 1 gsX).1).playerQueues "s1"
        = some default :=
  ⟨rfl,
   (dropFruit_accepted_spawns_one "s1" 400 none default default "30-1" 1 gsX rfl).1,
   (dropFruit_accepted_spawns_one "s1" 400 none default default "30-1" 1 gsX rfl).2.2.1⟩

/-- C1 (code-bug evidence): after the merge pass on `gsX`, the
merge-dedup set still holds the pair key `"10-1-20-1"` of the two
removed pieces, while no live block carries either uid: the purge at
lines 283–291 splits the key on `'-'`, but uids themselves contain
`'-'` (`` `${Date.now()}-${Math.random()}` ``), so the compared
fragments (`"10"`, `"1"`) never equal a removed uid and nothing is ever
purged. -/
theorem mergeDedup_references_removed_ids :
    (checkForMerges oracleX gsX).1.processedMerges = ["10-1-20-1"] ∧
    ((checkForMerges oracleX gsX).1.blocks.all
        (fun b => b.uid != "10-1" && b.uid != "20-1")) = true := by
  rw [checkForMergesX]
  exact ⟨rfl, by decide⟩

lemma scoreMerge_comboCount_pos (newLevel now : Nat) (s : ScoreState) :
    0 < (scoreMerge newLevel now s).2.comboCount := by
  simp only [scoreMerge]
  by_cases h : (now : Int) - (s.lastMergeTime : Int) < COMBO_WINDOW ∧ 0 < s.comboCount
  · rw [if_pos h]
    simp
  · rw [if_neg h]
    simp

lemma pairIdxs_append (ms : List MergeRec) (m : MergeRec) :
    pairIdxs (ms ++ [m]) = pairIdxs ms ++ [m.i, m.j] := by
  induction ms with
  | nil => rfl
  | cons a t ih => simp [pairIdxs, ih]

lemma pairIdxs_length (ms : List MergeRec) : (pairIdxs ms).length = 2 * ms.length := by
  induction ms with
  | nil => rfl
  | cons a t ih => simp [pairIdxs, ih]; omega

lemma pairIdxs_mem (ms : List MergeRec) (x : Nat) :
    x ∈ pairIdxs ms ↔ ∃ m ∈ ms, x = m.i ∨ x = m.j := by
  induction ms with
  | nil => simp [pairIdxs]
  | cons a t ih =>
    simp only [pairIdxs, List.mem_cons, ih]
    constructor
    · rintro (rfl | rfl | ⟨m, hm, hx⟩)
      · exact ⟨a, Or.inl rfl, Or.inl rfl⟩
      · exact ⟨a, Or.inl rfl, Or.inr rfl⟩
      · exact ⟨m, Or.inr hm, hx⟩
    · rintro ⟨m, (rfl | hm), hx⟩
      · rcases hx with rfl | rfl
        · exact Or.inl rfl
        · exact Or.inr (Or.inl rfl)
      · exact Or.inr (Or.inr ⟨m, hm, hx⟩)

lemma resolvePair_inv (oracle : Nat → Nat × String) (blocks : List Block) (c0 : Nat)
    (i j : Nat) (b1 b2 : Block) (st : ScanState)
    (hib : blocks[i]? = some b1) (hjb : blocks[j]? = some b2) (hij : i < j)
    (hcm : canMerge b1 b2 = true)
    (hni : i ∉ st.toRemove) (hnj : j ∉ st.toRemove)
    (hinv : ScanInv blocks c0 st) :
    ScanInv blocks c0 (resolvePair oracle i j b1 b2 st) := by
  obtain ⟨h1, h2, h3, h4, h5⟩ := hinv
  refine ⟨?_, ?_, ?_, ?_, ?_⟩
  · simp only [resolvePair, pairIdxs_append, h1]
  · simp only [resolvePair, List.map_append, h2, List.map_cons, List.map_nil]
  · simp only [resolvePair]
    rw [List.nodup_append]
    refine ⟨h3, ?_, ?_⟩
    · simp [Nat.ne_of_lt hij]
    · intro x hx
      simp only [List.mem_cons, List.mem_singleton, List.not_mem_nil, or_false]
      rintro (rfl | rfl)
      · exact hni hx
      · exact hnj hx
  · intro m hm
    simp only [resolvePair, List.mem_append, List.mem_singleton] at hm
    rcases hm with hm | hm
    · exact h4 m hm
    · subst hm
      exact ⟨hib, hjb, hij, hcm, rfl, rfl, rfl⟩
  · intro _
    simpa [resolvePair] using scoreMerge_comboCount_pos (b1.level + 1) (oracle st.oracleIdx).1 st.scoring

lemma innerLoop_inv (oracle : Nat → Nat × String) (blocks : List Block) (c0 : Nat)
    (i : Nat) (b1 : Block) :
    ∀ (sub : List Block) (j : Nat) (st : ScanState),
      sub = blocks.drop j →
      blocks[i]? = some b1 →
      i < j →
      i ∉ st.toRemove →
      ScanInv blocks c0 st →
      ScanInv blocks c0 (innerLoop oracle i b1 j sub st) := by
  intro sub
  induction sub with
  | nil =>
    intro j st _ _ _ _ hinv
    simpa [innerLoop] using hinv
  | cons b2 rest ih =>
    intro j st hdrop hib hij hni hinv
    have hj2 : blocks[j]? = some b2 := by
      have h0 : (blocks.drop j)[0]? = some b2 := by
        rw [← hdrop]
        simp
      rw [List.getElem?_drop] at h0
      simpa using h0
    have hrest : rest = blocks.drop (j + 1) := by
      have hd : blocks.drop (j + 1) = List.drop 1 (List.drop j blocks) := by
        rw [List.drop_drop]
      rw [hd, ← hdrop]
      rfl
    simp only [innerLoop]
    by_cases hjr : st.toRemove.contains j = true
    · rw [if_pos hjr]
      exact ih (j + 1) st hrest hib (Nat.lt_succ_of_lt hij) hni hinv
    · rw [if_neg hjr]
      by_cases hcm : canMerge b1 b2 = true
      · rw [if_pos hcm]
        by_cases hpm : st.processedMerges.contains (b1.uid ++ "-" ++ b2.uid) = true
        · rw [if_pos hpm]
          exact ih (j + 1) st hrest hib (Nat.lt_succ_of_lt hij) hni hinv
        · rw [if_neg hpm]
          have hnj : j ∉ st.toRemove := by simpa using hjr
          exact resolvePair_inv oracle blocks c0 i j b1 b2 st hib hj2 hij hcm hni hnj hinv
      · rw [if_neg hcm]
        exact ih (j + 1) st hrest hib (Nat.lt_succ_of_lt hij) hni hinv

lemma outerLoop_inv (oracle : Nat → Nat × String) (blocks : List Block) (c0 : Nat) :
    ∀ (sub : List Block) (i : Nat) (st : ScanState),
      sub = blocks.drop i →
      ScanInv blocks c0 st →
      ScanInv blocks c0 (outerLoop oracle i sub st) := by
  intro sub
  induction sub with
  | nil =>
    intro i st _ hinv
    simpa [outerLoop] using hinv
  | cons b1 rest ih =>
    intro i st hdrop hinv
    have hib : blocks[i]? = some b1 := by
      have h0 : (blocks.drop i)[0]? = some b1 := by
        rw [← hdrop]
        simp
      rw [List.getElem?_drop] at h0
      simpa using h0
    have hrest : rest = blocks.drop (i + 1) := by
      have hd : blocks.drop (i + 1) = List.drop 1 (List.drop i blocks) := by
        rw [List.drop_drop]
      rw [hd, ← hdrop]
      rfl
    simp only [outerLoop]
    by_cases hir : st.toRemove.contains i = true
    · rw [if_pos hir]
      exact ih (i + 1) st hrest hinv
    · rw [if_neg hir]
      refine ih (i + 1) _ hrest ?_
      have hni : i ∉ st.toRemove := by simpa using hir
      exact innerLoop_inv oracle blocks c0 i b1 rest (i + 1) st hrest hib
        (Nat.lt_succ_self i) hni hinv

lemma initScan_inv (gs : ServerState) : ScanInv gs.blocks gs.comboCount (initScan gs) := by
  refine ⟨rfl, rfl, List.nodup_nil, ?_, ?_⟩
  · intro m hm
    simp [initScan] at hm
  · intro h
    simpa [initScan] using h

lemma checkForMerges_scan_inv (oracle : Nat → Nat × String) (gs : ServerState) :
    ScanInv gs.blocks gs.comboCount (outerLoop oracle 0 gs.blocks (initScan gs)) := by
  have := outerLoop_inv oracle gs.blocks gs.comboCount gs.blocks 0 (initScan gs)
    (by rw [List.drop_zero]) (initScan_inv gs)
  exact this

lemma checkForMerges_snd (oracle : Nat → Nat × String) (gs : ServerState) :
    (checkForMerges oracle gs).2 = (outerLoop oracle 0 gs.blocks (initScan gs)).merges := by
  unfold checkForMerges
  by_cases h : (outerLoop oracle 0 gs.blocks (initScan gs)).toRemove.isEmpty = true
  · simp [h]
  · simp [h]

lemma canMerge_sqrt (b1 b2 : Block) (h : canMerge b1 b2 = true) :
    b1.level = b2.level ∧ b1.level < MAX_LEVEL ∧
    Real.sqrt (((b1.x : ℝ) - (b2.x : ℝ)) ^ 2 + ((b1.y : ℝ) - (b2.y : ℝ)) ^ 2)
      < ((b1.radius : ℝ) + (b2.radius : ℝ)) * 1.05 := by
  simp only [canMerge, Bool.and_eq_true, beq_iff_eq, decide_eq_true_eq] at h
  obtain ⟨⟨hl, hlt⟩, hpos, hsq⟩ := h
  refine ⟨hl, hlt, ?_⟩
  have hposR : (0 : ℝ) < ((b1.radius : ℝ) + (b2.radius : ℝ)) * 1.05 := by
    have hc := (Rat.cast_lt (K := ℝ)).mpr hpos
    push_cast at hc
    exact hc
  have hsqR : ((b1.x : ℝ) - (b2.x : ℝ)) ^ 2 + ((b1.y : ℝ) - (b2.y : ℝ)) ^ 2
      < (((b1.radius : ℝ) + (b2.radius : ℝ)) * 1.05) ^ 2 := by
    have hc := (Rat.cast_lt (K := ℝ)).mpr hsq
    push_cast at hc
    exact hc
  exact (Real.sqrt_lt' hposR).mpr hsqR

/-- C4: every merge resolved by a `checkForMerges` pass is between two
live pieces of the scanned list whose ranks are equal and strictly below
`MAX_LEVEL`, and whose centers are closer than the sum of their radii
times the proximity factor 1.05. -/
theorem merge_requires_rank_and_proximity (oracle : Nat → Nat × String) (gs : ServerState) :
    ∀ m ∈ (checkForMerges oracle gs).2,
      gs.blocks[m.i]? = some m.b1 ∧ gs.blocks[m.j]? = some m.b2 ∧
      m.b1.level = m.b2.level ∧ m.b1.level < MAX_LEVEL ∧
      Real.sqrt (((m.b1.x : ℝ) - (m.b2.x : ℝ)) ^ 2 + ((m.b1.y : ℝ) - (m.b2.y : ℝ)) ^ 2)
        < ((m.b1.radius : ℝ) + (m.b2.radius : ℝ)) * 1.05 := by
  intro m hm
  rw [checkForMerges_snd] at hm
  obtain ⟨-, -, -, h4, -⟩ := checkForMerges_scan_inv oracle gs
  obtain ⟨hib, hjb, hij, hcm, -, -, -⟩ := h4 m hm
  obtain ⟨hl, hlt, hs⟩ := canMerge_sqrt m.b1 m.b2 hcm
  exact ⟨hib, hjb, hl, hlt, hs⟩

lemma recX_mem : recX ∈ (checkForMerges oracleX gsX).2 := by
  rw [checkForMergesX]
  simp

/-- Closed witness for `merge_requires_rank_and_proximity`: the merge
resolved on the two-piece fixture state. -/
theorem merge_requires_rank_and_proximity_witness :
    recX ∈ (checkForMerges oracleX gsX).2 ∧
    (recX.b1.level = recX.b2.level ∧ recX.b1.level < MAX_LEVEL ∧
     Real.sqrt (((recX.b1.x : ℝ) - (recX.b2.x : ℝ)) ^ 2 + ((recX.b1.y : ℝ) - (recX.b2.y : ℝ)) ^ 2)
       < ((recX.b1.radius : ℝ) + (recX.b2.radius : ℝ)) * 1.05) :=
  ⟨recX_mem, (merge_requires_rank_and_proximity oracleX gsX recX recX_mem).2.2⟩

lemma countP_window_succ (rem : List Nat) (k len : Nat) (hnd : rem.Nodup) (hk : k ∈ rem) :
    rem.countP (fun x => decide (k ≤ x) && decide (x < k + (len + 1)))
      = rem.countP (fun x => decide (k + 1 ≤ x) && decide (x < k + 1 + len)) + 1 := by
  induction rem with
  | nil => cases hk
  | cons a t ih =>
    have hnd' : t.Nodup := (List.nodup_cons.mp hnd).2
    rw [List.countP_cons, List.countP_cons]
    rcases List.mem_cons.mp hk with rfl | hmem
    · have hknt : k ∉ t := (List.nodup_cons.mp hnd).1
      have hpk : (decide (k ≤ k) && decide (k < k + (len + 1))) = true := by
        rw [← Bool.decide_and, decide_eq_true_eq]
        omega
      have hqk : (decide (k + 1 ≤ k) && decide (k < k + 1 + len)) = false := by
        rw [← Bool.decide_and, decide_eq_false_iff_not]
        omega
      have heq : t.countP (fun x => decide (k ≤ x) && decide (x < k + (len + 1)))
          = t.countP (fun x => decide (k + 1 ≤ x) && decide (x < k + 1 + len)) := by
        apply List.countP_congr
        intro x hx
        have hxk : x ≠ k := fun hxeq => hknt (hxeq ▸ hx)
        rw [← Bool.decide_and, ← Bool.decide_and, decide_eq_true_eq, decide_eq_true_eq]
        omega
      simp [hpk, hqk, heq]
    · have hak : a ≠ k := by
        rintro rfl
        exact (List.nodup_cons.mp hnd).1 hmem
      have heqa : (decide (k ≤ a) && decide (a < k + (len + 1)))
          = (decide (k + 1 ≤ a) && decide (a < k + 1 + len)) := by
        rw [← Bool.decide_and, ← Bool.decide_and, decide_eq_decide]
        omega
      rw [ih hnd' hmem, heqa]
      omega

lemma countP_window_same (rem : List Nat) (k len : Nat) (hk : k ∉ rem) :
    rem.countP (fun x => decide (k ≤ x) && decide (x < k + (len + 1)))
      = rem.countP (fun x => decide (k + 1 ≤ x) && decide (x < k + 1 + len)) := by
  apply List.countP_congr
  intro x hx
  have hxa : x ≠ k := fun hxeq => hk (hxeq ▸ hx)
  rw [← Bool.decide_and, ← Bool.decide_and, decide_eq_true_eq, decide_eq_true_eq]
  omega

lemma rejectIdx_length (l : List Block) :
    ∀ (rem : List Nat) (k : Nat), rem.Nodup →
      (rejectIdx rem k l).length
        + rem.countP (fun x => decide (k ≤ x) && decide (x < k + l.length)) = l.length := by
  induction l with
  | nil =>
    intro rem k _
    simp only [rejectIdx, List.length_nil, Nat.add_zero, List.length_eq_zero]
    rw [List.countP_eq_zero.mpr]
    intro a _
    simp only [Bool.and_eq_true, decide_eq_true_eq, not_and]
    omega
  | cons b bs ih =>
    intro rem k hnd
    simp only [List.length_cons]
    by_cases hk : rem.contains k = true
    · have hkmem : k ∈ rem := by simpa using hk
      simp only [rejectIdx, if_pos hk]
      rw [countP_window_succ rem k bs.length hnd hkmem]
      have := ih rem (k + 1) hnd
      omega
    · have hknot : k ∉ rem := by simpa using hk
      simp only [rejectIdx, if_neg hk, List.length_cons]
      rw [countP_window_same rem k bs.length hknot]
      have := ih rem (k + 1) hnd
      omega

lemma rejectIdx_length_of_bounded (l : List Block) (rem : List Nat) (hnd : rem.Nodup)
    (hb : ∀ x ∈ rem, x < l.length) :
    (rejectIdx rem 0 l).length + rem.length = l.length := by
  have h := rejectIdx_length l rem 0 hnd
  rw [List.countP_eq_length.mpr] at h
  · simpa using h
  · intro a ha
    simp only [Bool.and_eq_true, decide_eq_true_eq]
    exact ⟨Nat.zero_le a, by simpa using hb a ha⟩

lemma pairIdxs_eq_nil (ms : List MergeRec) (h : pairIdxs ms = []) : ms = [] := by
  cases ms with
  | nil => rfl
  | cons a t => simp [pairIdxs] at h

/-- C5: over one `checkForMerges` pass, each resolved merge removes its
two (distinct, not previously consumed) source pieces and adds exactly
one block of the next rank at the sources' midpoint, so the live piece
count drops by exactly the number of resolved merges; the consumed
indices are pairwise distinct, so no pair is resolved twice within the
pass (and the sources are removed, so the pair's ids no longer exist
afterwards). -/
theorem merge_removes_two_adds_one (oracle : Nat → Nat × String) (gs : ServerState) :
    (checkForMerges oracle gs).1.blocks.length + (checkForMerges oracle gs).2.length
        = gs.blocks.length ∧
    (pairIdxs (checkForMerges oracle gs).2).Nodup ∧
    ∀ m ∈ (checkForMerges oracle gs).2,
      gs.blocks[m.i]? = some m.b1 ∧ gs.blocks[m.j]? = some m.b2 ∧ m.i ≠ m.j ∧
      m.newBlock.level = m.b1.level + 1 ∧
      m.newBlock.x = (m.b1.x + m.b2.x) / 2 ∧ m.newBlock.y = (m.b1.y + m.b2.y) / 2 := by
  obtain ⟨h1, h2, h3, h4, h5⟩ := checkForMerges_scan_inv oracle gs
  have hsnd := checkForMerges_snd oracle gs
  refine ⟨?_, ?_, ?_⟩
  · rcases Bool.eq_false_or_eq_true
        ((outerLoop oracle 0 gs.blocks (initScan gs)).toRemove.isEmpty) with hE | hE
    · have hnil : (outerLoop oracle 0 gs.blocks (initScan gs)).toRemove = [] := by
        simpa using hE
      have hms : (outerLoop oracle 0 gs.blocks (initScan gs)).merges = [] :=
        pairIdxs_eq_nil _ (by rw [← h1, hnil])
      have hblocks : (checkForMerges oracle gs).1.blocks = gs.blocks := by
        unfold checkForMerges
        simp [hE]
      rw [hblocks, hsnd, hms]
      simp
    · have hblocks : (checkForMerges oracle gs).1.blocks
          = rejectIdx (outerLoop oracle 0 gs.blocks (initScan gs)).toRemove 0 gs.blocks
            ++ (outerLoop oracle 0 gs.blocks (initScan gs)).toAdd := by
        unfold checkForMerges
        simp [hE]
      have hbound : ∀ x ∈ (outerLoop oracle 0 gs.blocks (initScan gs)).toRemove,
          x < gs.blocks.length := by
        intro x hx
        rw [h1] at hx
        obtain ⟨m, hm, hx⟩ := (pairIdxs_mem _ x).mp hx
        obtain ⟨hib, hjb, -, -, -, -, -⟩ := h4 m hm
        rcases hx with rfl | rfl
        · exact (List.getElem?_eq_some_iff.mp hib).1
        · exact (List.getElem?_eq_some_iff.mp hjb).1
      have hlen := rejectIdx_length_of_bounded gs.blocks
        (outerLoop oracle 0 gs.blocks (initScan gs)).toRemove h3 hbound
      have hpl : (outerLoop oracle 0 gs.blocks (initScan gs)).toRemove.length
          = 2 * (outerLoop oracle 0 gs.blocks (initScan gs)).merges.length := by
        rw [h1, pairIdxs_length]
      have htl : (outerLoop oracle 0 gs.blocks (initScan gs)).toAdd.length
          = (outerLoop oracle 0 gs.blocks (initScan gs)).merges.length := by
        rw [h2, List.length_map]
      rw [hblocks, hsnd, List.length_append, htl]
      omega
  · rw [hsnd, ← h1]
    exact h3
  · intro m hm
    rw [hsnd] at hm
    obtain ⟨hib, hjb, hij, -, hlv, hx, hy⟩ := h4 m hm
    exact ⟨hib, hjb, Nat.ne_of_lt hij, hlv, hx, hy⟩

/-- Closed witness for `merge_removes_two_adds_one`: on the two-piece
fixture the pass leaves `1 + 1 = 2` pieces-worth of bookkeeping and the
merged block is one rank up at the midpoint. -/
theorem merge_removes_two_adds_one_witness :
    (checkForMerges oracleX gsX).1.blocks.length + (checkForMerges oracleX gsX).2.length
        = gsX.blocks.length ∧
    (recX.newBlock.level = recX.b1.level + 1 ∧
     recX.newBlock.x = (recX.b1.x + recX.b2.x) / 2) :=
  ⟨(merge_removes_two_adds_one oracleX gsX).1,
   ((merge_removes_two_adds_one oracleX gsX).2.2 recX recX_mem).2.2.2.1,
   ((merge_removes_two_adds_one oracleX gsX).2.2 recX recX_mem).2.2.2.2.1⟩

lemma goRun_cons (e : GOEvent) (es : List GOEvent) (st : GOState) :
    goRun (e :: es) st = goRun es (goStep e st) := rfl

lemma goStep_gameOver_mono (e : GOEvent) (st : GOState) (h : st.gameOver = true) :
    (goStep e st).gameOver = true := by
  rcases st with ⟨go, tm⟩
  cases go with
  | true =>
    cases tm with
    | none => simp [goStep, fireIfDue, checkGameOverTick]
    | some t =>
      by_cases hd : t + 3000 ≤ e.now <;> simp [goStep, fireIfDue, checkGameOverTick, hd]
  | false => cases h

lemma goRun_gameOver_mono (es : List GOEvent) :
    ∀ st : GOState, st.gameOver = true → (goRun es st).gameOver = true := by
  induction es with
  | nil => intro st h; simpa [goRun] using h
  | cons e rest ih =>
    intro st h
    rw [goRun_cons]
    exact ih _ (goStep_gameOver_mono e st h)

lemma goStep_arm (e : GOEvent) (hv : (settledDangerBlocks e).isEmpty = false) :
    goStep e ⟨false, none⟩ = ⟨false, some e.now⟩ := by
  simp [goStep, fireIfDue, checkGameOverTick, hv]

lemma goStep_safe_noviol (e : GOEvent) (hv : (settledDangerBlocks e).isEmpty = true) :
    goStep e ⟨false, none⟩ = ⟨false, none⟩ := by
  simp [goStep, fireIfDue, checkGameOverTick, hv]

lemma goStep_keep (e : GOEvent) (t : Nat) (hv : (settledDangerBlocks e).isEmpty = false)
    (hnd : e.now < t + 3000) :
    goStep e ⟨false, some t⟩ = ⟨false, some t⟩ := by
  have hnd' : ¬ (t + 3000 ≤ e.now) := by omega
  simp [goStep, fireIfDue, checkGameOverTick, hv, hnd']

lemma goStep_cancel (e : GOEvent) (t : Nat) (hv : (settledDangerBlocks e).isEmpty = true)
    (hnd : e.now < t + 3000) :
    goStep e ⟨false, some t⟩ = ⟨false, none⟩ := by
  have hnd' : ¬ (t + 3000 ≤ e.now) := by omega
  simp [goStep, fireIfDue, checkGameOverTick, hv, hnd']

lemma goStep_fire (e : GOEvent) (t : Nat) (hd : t + 3000 ≤ e.now) :
    goStep e ⟨false, some t⟩ = ⟨true, some t⟩ := by
  simp [goStep, fireIfDue, checkGameOverTick, hd]

lemma FullWindow_lift (e : GOEvent) (rest : List GOEvent) (t : Nat)
    (hlt : ∀ x ∈ rest, e.now < x.now) (hw : FullWindow t rest) :
    FullWindow t (e :: rest) := by
  obtain ⟨⟨a, ha, hat, hav⟩, hwin, hex⟩ := hw
  refine ⟨⟨a, List.mem_cons_of_mem _ ha, hat, hav⟩, ?_, ?_⟩
  · intro x hx hge hltw
    rcases List.mem_cons.mp hx with rfl | hx
    · exfalso
      have hxa : x.now < a.now := hlt a ha
      omega
    · exact hwin x hx hge hltw
  · obtain ⟨x, hx, hxe⟩ := hex
    exact ⟨x, List.mem_cons_of_mem _ hx, hxe⟩

lemma goRun_window (es : List GOEvent) :
    ∀ st : GOState, st.gameOver = false →
      List.Pairwise (fun a b => a.now < b.now) es →
      (∀ t, st.timer = some t → ∀ e ∈ es, t < e.now) →
      (goRun es st).gameOver = true →
      (∃ t, st.timer = some t ∧ CompleteFrom t es) ∨ (∃ t, FullWindow t es) := by
  induction es with
  | nil =>
    intro st hgo _ _ hrun
    rw [show goRun [] st = st from rfl] at hrun
    rw [hgo] at hrun
    cases hrun
  | cons e rest ih =>
    intro st hgo hpw htime hrun
    have hpw' : List.Pairwise (fun a b => a.now < b.now) rest := (List.pairwise_cons.mp hpw).2
    have hlt : ∀ x ∈ rest, e.now < x.now := (List.pairwise_cons.mp hpw).1
    rw [goRun_cons] at hrun
    rcases st with ⟨go, tm⟩
    simp only at hgo
    subst hgo
    cases htm : tm with
    | none =>
      subst htm
      rcases Bool.eq_false_or_eq_true ((settledDangerBlocks e).isEmpty) with hv | hv
      · -- no violation: nothing armed
        rw [goStep_safe_noviol e hv] at hrun
        rcases ih ⟨false, none⟩ rfl hpw' (by simp) hrun with ⟨t, ht, _⟩ | ⟨t, hw⟩
        · cases ht
        · exact Or.inr ⟨t, FullWindow_lift e rest t hlt hw⟩
      · -- violation: the timer arms at e.now
        rw [goStep_arm e hv] at hrun
        have htime' : ∀ t, (some e.now : Option Nat) = some t → ∀ x ∈ rest, t < x.now := by
          rintro t ht x hx
          injection ht with ht
          subst ht
          exact hlt x hx
        rcases ih ⟨false, some e.now⟩ rfl hpw' htime' hrun with ⟨t, ht, hcf⟩ | ⟨t, hw⟩
        · injection ht with ht
          subst ht
          right
          refine ⟨e.now, ⟨e, List.mem_cons_self _ _, rfl, hv⟩, ?_, ?_⟩
          · intro x hx _ hxlt
            rcases List.mem_cons.mp hx with rfl | hx
            · exact hv
            · exact hcf.1 x hx hxlt
          · obtain ⟨x, hx, hxe⟩ := hcf.2
            exact ⟨x, List.mem_cons_of_mem _ hx, hxe⟩
        · exact Or.inr ⟨t, FullWindow_lift e rest t hlt hw⟩
    | some t =>
      subst htm
      have htlt : t < e.now := htime t rfl e (List.mem_cons_self _ _)
      by_cases hd : t + 3000 ≤ e.now
      · -- the armed timer fires before / at this tick
        rw [goStep_fire e t hd] at hrun
        left
        refine ⟨t, rfl, ?_, ⟨e, List.mem_cons_self _ _, hd⟩⟩
        intro x hx hxlt
        rcases List.mem_cons.mp hx with rfl | hx
        · omega
        · exfalso
          have := hlt x hx
          omega
      · have hnd : e.now < t + 3000 := by omega
        rcases Bool.eq_false_or_eq_true ((settledDangerBlocks e).isEmpty) with hv | hv
        · -- violation cleared before the timer fired: cancelled
          rw [goStep_cancel e t hv hnd] at hrun
          rcases ih ⟨false, none⟩ rfl hpw' (by simp) hrun with ⟨t', ht', _⟩ | ⟨t', hw⟩
          · cases ht'
          · exact Or.inr ⟨t', FullWindow_lift e rest t' hlt hw⟩
        · -- violation persists, timer stays armed
          rw [goStep_keep e t hv hnd] at hrun
          have htime' : ∀ t', (some t : Option Nat) = some t' → ∀ x ∈ rest, t' < x.now := by
            rintro t' ht' x hx
            injection ht' with ht'
            subst ht'
            exact lt_trans htlt (hlt x hx)
          rcases ih ⟨false, some t⟩ rfl hpw' htime' hrun with ⟨t', ht', hcf⟩ | ⟨t', hw⟩
          · injection ht' with heq
            subst heq
            left
            refine ⟨t, rfl, ?_, ?_⟩
            · intro x hx hxlt
              rcases List.mem_cons.mp hx with rfl | hx
              · exact hv
              · exact hcf.1 x hx hxlt
            · obtain ⟨x, hx, hxe⟩ := hcf.2
              exact ⟨x, List.mem_cons_of_mem _ hx, hxe⟩
          · exact Or.inr ⟨t', FullWindow_lift e rest t' hlt hw⟩

/-- C6: over any strictly time-ordered trace of monitor ticks starting
from the safe state, `gameOver` can become true only if some violating
tick at a time `t` armed the timer, every tick within the whole
3000 ms grace window still observed a settled violation, and a tick at
or past `t + 3000` let the timer fire; moreover a single tick with zero
settled violations before the timer is due cancels the pending timer
and produces no game-over. -/
theorem gameOver_requires_persistent_violation :
    (∀ es : List GOEvent,
        List.Pairwise (fun a b => a.now < b.now) es →
        (goRun es ⟨false, none⟩).gameOver = true →
        ∃ t, (∃ e ∈ es, e.now = t ∧ (settledDangerBlocks e).isEmpty = false) ∧
          (∀ e ∈ es, t ≤ e.now → e.now < t + 3000 → (settledDangerBlocks e).isEmpty = false) ∧
          (∃ e ∈ es, t + 3000 ≤ e.now)) ∧
    (∀ (e : GOEvent) (t : Nat), (settledDangerBlocks e).isEmpty = true → e.now < t + 3000 →
        goStep e ⟨false, some t⟩ = ⟨false, none⟩) := by
  constructor
  · intro es hpw hrun
    rcases goRun_window es ⟨false, none⟩ rfl hpw (by simp) hrun with ⟨t, ht, _⟩ | ⟨t, hw⟩
    · cases ht
    · exact ⟨t, hw.1, hw.2.1, hw.2.2⟩
  · intro e t hv hnd
    exact goStep_cancel e t hv hnd

lemma violX : settledDangerBlocks goEvX = [bDangerX] := by
  unfold settledDangerBlocks goEvX
  norm_num [bDangerX, b1X, GAME_OVER_LINE, List.filter]

lemma violX2 : settledDangerBlocks goEvX2 = [bDangerX] := by
  unfold settledDangerBlocks goEvX2 goEvX
  norm_num [bDangerX, b1X, GAME_OVER_LINE, List.filter]

lemma pwX : List.Pairwise (fun a b : GOEvent => a.now < b.now) [goEvX, goEvX2] := by
  norm_num [goEvX, goEvX2, List.pairwise_cons]

lemma runX : (goRun [goEvX, goEvX2] ⟨false, none⟩).gameOver = true := by
  rw [goRun_cons, goStep_arm goEvX (by rw [violX]; rfl), goRun_cons,
    show goEvX.now = 0 from rfl, goStep_fire goEvX2 0 (by norm_num [goEvX2, goEvX])]
  rfl

/-- Closed witness for `gameOver_requires_persistent_violation`: a piece
settles above the danger line at t = 0 and is still there at t = 3000,
so the game ends and the trace exhibits the fully violated window. -/
theorem gameOver_requires_persistent_violation_witness :
    List.Pairwise (fun a b : GOEvent => a.now < b.now) [goEvX, goEvX2] ∧
    (goRun [goEvX, goEvX2] ⟨false, none⟩).gameOver = true ∧
    ∃ t, (∃ e ∈ [goEvX, goEvX2], e.now = t ∧ (settledDangerBlocks e).isEmpty = false) ∧
      (∀ e ∈ [goEvX, goEvX2], t ≤ e.now → e.now < t + 3000 →
        (settledDangerBlocks e).isEmpty = false) ∧
      (∃ e ∈ [goEvX, goEvX2], t + 3000 ≤ e.now) :=
  ⟨pwX, runX, gameOver_requires_persistent_violation.1 [goEvX, goEvX2] pwX runX⟩

lemma connectStep_inv (id : String) (s : SessionState) (hinv : recorderInv s) :
    recorderInv (connectStep id s) := by
  rcases s with ⟨conn, fc⟩
  obtain ⟨hinv1, hinv2⟩ := hinv
  cases fc with
  | none =>
    refine ⟨?_, ?_⟩
    · intro h
      simp [connectStep] at h
    · intro _
      exact ⟨id, rfl, by simp [connectStep]⟩
  | some c =>
    have hconn : conn ≠ [] := by
      intro h
      have := hinv1 h
      simp at this
    obtain ⟨c', hc', hmem⟩ := hinv2 hconn
    refine ⟨?_, ?_⟩
    · intro h
      simp [connectStep] at h
    · intro _
      refine ⟨c', ?_, ?_⟩
      · simpa [connectStep] using hc'
      · simp only [connectStep, List.mem_append]
        exact Or.inl hmem

lemma disconnectStep_inv (id : String) (s : SessionState) (hinv : recorderInv s) :
    recorderInv (disconnectStep id s) := by
  rcases s with ⟨conn, fc⟩
  obtain ⟨hinv1, hinv2⟩ := hinv
  by_cases hfc : fc = some id
  · subst hfc
    cases hrem : conn.filter (fun c => !(c == id)) with
    | nil =>
      refine ⟨?_, ?_⟩
      · intro _
        simp [disconnectStep, hrem]
      · intro h
        exfalso
        exact h (by simp [disconnectStep, hrem])
    | cons h t =>
      have hmem : h ∈ conn.filter (fun c => !(c == id)) := by
        rw [hrem]
        exact List.mem_cons_self _ _
      refine ⟨?_, ?_⟩
      · intro hempty
        exfalso
        simp only [disconnectStep, hrem] at hempty
        cases hempty
      · intro _
        refine ⟨h, by simp [disconnectStep, hrem], ?_⟩
        have hh : (disconnectStep id ⟨conn, some id⟩).connected = h :: t := by
          simp [disconnectStep, hrem]
        rw [hh]
        exact List.mem_cons_self _ _
  · cases hc : fc with
    | none =>
      have hconn : conn = [] := by
        by_contra hne
        obtain ⟨c', hc', -⟩ := hinv2 hne
        rw [hc] at hc'
        cases hc'
      refine ⟨?_, ?_⟩
      · intro _
        simp [disconnectStep, hc, hfc]
      · intro h
        exfalso
        apply h
        simp [disconnectStep, hconn]
    | some c =>
      subst hc
      have hconn : conn ≠ [] := by
        intro h
        have := hinv1 h
        cases this
      obtain ⟨c', hc', hmem⟩ := hinv2 hconn
      injection hc' with hc'
      subst hc'
      have hcne : c ≠ id := by
        intro h
        exact hfc (by rw [h])
      have hcrem : c ∈ conn.filter (fun x => !(x == id)) := by
        rw [List.mem_filter]
        refine ⟨hmem, ?_⟩
        simp [hcne]
      refine ⟨?_, ?_⟩
      · intro h
        exfalso
        simp only [disconnectStep, if_neg hfc] at h
        rw [h] at hcrem
        cases hcrem
      · intro _
        refine ⟨c, ?_, ?_⟩
        · simp [disconnectStep, hfc]
        · simpa [disconnectStep, hfc] using hcrem

lemma gameOverFireStep_target (s : SessionState) (sc hs mc : Nat)
    (hne : s.connected ≠ []) :
    ∃ c ∈ s.connected, (gameOverFireStep sc hs mc s).2
      = [Msg.gameOverAll sc hs mc, Msg.saveHistory c sc hs mc]
      ∧ (gameOverFireStep sc hs mc s).1.firstClientId = some c
      ∧ (gameOverFireStep sc hs mc s).1.connected = s.connected := by
  rcases s with ⟨conn, fc⟩
  cases hcs : conn with
  | nil => exact absurd hcs hne
  | cons h t =>
    subst hcs
    cases fc with
    | none =>
      exact ⟨h, List.mem_cons_self _ _, rfl, rfl, rfl⟩
    | some c =>
      by_cases hc : (h :: t).contains c = true
      · have hcm : c ∈ h :: t := by simpa using hc
        refine ⟨c, hcm, ?_, ?_, ?_⟩
        · simp only [gameOverFireStep]
          rw [if_pos hc]
        · simp only [gameOverFireStep]
          rw [if_pos hc]
        · simp only [gameOverFireStep]
      · refine ⟨h, List.mem_cons_self _ _, ?_, ?_, ?_⟩
        · simp only [gameOverFireStep]
          rw [if_neg hc]
        · simp only [gameOverFireStep]
          rw [if_neg hc]
        · simp only [gameOverFireStep]

lemma goFireStep_inv (s : SessionState) (hinv : recorderInv s) :
    recorderInv (sessStep SessEvent.goFire s) := by
  by_cases hne : s.connected = []
  · have : sessStep SessEvent.goFire s = s := by
      rcases s with ⟨conn, fc⟩
      simp only at hne
      subst hne
      simp [sessStep, gameOverFireStep]
    rw [this]
    exact hinv
  · obtain ⟨c, hmem, -, hfc, hconn⟩ := gameOverFireStep_target s 0 0 0 hne
    refine ⟨?_, ?_⟩
    · intro h
      exfalso
      rw [show (sessStep SessEvent.goFire s).connected = (gameOverFireStep 0 0 0 s).1.connected
        from rfl, hconn] at h
      exact hne h
    · intro _
      exact ⟨c, by rw [show (sessStep SessEvent.goFire s).firstClientId
          = (gameOverFireStep 0 0 0 s).1.firstClientId from rfl, hfc],
        by rw [show (sessStep SessEvent.goFire s).connected
          = (gameOverFireStep 0 0 0 s).1.connected from rfl, hconn]; exact hmem⟩

lemma sessStep_inv (ev : SessEvent) (s : SessionState) (hinv : recorderInv s) :
    recorderInv (sessStep ev s) := by
  cases ev with
  | connect id => exact connectStep_inv id s hinv
  | disconnect id => exact disconnectStep_inv id s hinv
  | goFire => exact goFireStep_inv s hinv

lemma sessRun_inv (es : List SessEvent) :
    ∀ s : SessionState, recorderInv s → recorderInv (sessRun es s) := by
  induction es with
  | nil => intro s h; simpa [sessRun] using h
  | cons e rest ih =>
    intro s h
    rw [show sessRun (e :: rest) s = sessRun rest (sessStep e s) from rfl]
    exact ih _ (sessStep_inv e s h)

/-- C8: starting from the empty session state, after any sequence of
connect / disconnect / game-over-fire events the recorder designation
satisfies: cleared when no session is connected, and held by exactly one
connected session otherwise (assigned on the first connect, reassigned
on disconnect of the holder); and whenever at least one session is
connected, a game-over fire emits the `saveHistory` notification to
exactly one connected session. -/
theorem history_recorder_unique :
    (∀ es : List SessEvent, recorderInv (sessRun es sessInit)) ∧
    (∀ (s : SessionState) (sc hs mc : Nat), s.connected ≠ [] →
        ∃ c ∈ s.connected, (gameOverFireStep sc hs mc s).2
          = [Msg.gameOverAll sc hs mc, Msg.saveHistory c sc hs mc]) ∧
    (∀ id : String, sessStep (SessEvent.connect id) sessInit
        = { connected := [id], firstClientId := some id }) := by
  refine ⟨?_, ?_, ?_⟩
  · intro es
    apply sessRun_inv
    exact ⟨fun _ => rfl, fun h => absurd rfl h⟩
  · intro s sc hs mc hne
    obtain ⟨c, hmem, hmsg, -, -⟩ := gameOverFireStep_target s sc hs mc hne
    exact ⟨c, hmem, hmsg⟩
  · intro id
    rfl

/-- Closed witness for `history_recorder_unique`: firing game over with
the single session `"a"` connected sends `saveHistory` exactly to it. -/
theorem history_recorder_unique_witness :
    (⟨["a"], none⟩ : SessionState).connected ≠ [] ∧
    ∃ c ∈ (⟨["a"], none⟩ : SessionState).connected,
      (gameOverFireStep 7 9 2 ⟨["a"], none⟩).2
        = [Msg.gameOverAll 7 9 2, Msg.saveHistory c 7 9 2] :=
  ⟨by simp, history_recorder_unique.2.1 ⟨["a"], none⟩ 7 9 2 (by simp)⟩

lemma checkForMerges_comboCount (oracle : Nat → Nat × String) (gs : ServerState) :
    (checkForMerges oracle gs).1.comboCount
      = (outerLoop oracle 0 gs.blocks (initScan gs)).scoring.comboCount := by
  unfold checkForMerges
  rcases Bool.eq_false_or_eq_true
      ((outerLoop oracle 0 gs.blocks (initScan gs)).toRemove.isEmpty) with hE | hE <;>
    simp [hE]

/-- C9: the ~100 ms decay check zeroes `comboCount` (and the broadcast
`combo`) exactly when more than the 2000 ms combo window has elapsed
since the last merge while the combo is live; and across the modelled
operations it and the restart are the only ways `comboCount` reaches 0:
the per-merge scoring always leaves `comboCount` positive, a merge pass
never zeroes a live combo, and the drop / connect handlers leave
`comboCount` untouched. -/
theorem comboDecay_resets_and_is_sole_zeroing :
    (∀ (now : Nat) (st : ServerState),
        (now : Int) - (st.lastMergeTime : Int) > COMBO_WINDOW → 0 < st.comboCount →
        (comboDecayTick now st).comboCount = 0 ∧ (comboDecayTick now st).combo = 0) ∧
    (∀ (now : Nat) (st : ServerState),
        ¬ ((now : Int) - (st.lastMergeTime : Int) > COMBO_WINDOW ∧ 0 < st.comboCount) →
        comboDecayTick now st = st) ∧
    (∀ (newLevel now : Nat) (s : ScoreState), 0 < (scoreMerge newLevel now s).2.comboCount) ∧
    (∀ (oracle : Nat → Nat × String) (gs : ServerState),
        0 < gs.comboCount → 0 < (checkForMerges oracle gs).1.comboCount) ∧
    (∀ (socketId : String) (x : ℚ) (playerName : Option String)
        (randPlayerFruit newPersonal : Fruit) (uid : String) (now : Nat) (st : ServerState),
        ((handleDropFruit socketId x playerName randPlayerFruit newPersonal uid now st).1).comboCount
          = st.comboCount) ∧
    (∀ (socketId : String) (personal : Fruit) (st : ServerState),
        ((handleConnect socketId personal st).1).comboCount = st.comboCount) ∧
    (∀ (connected : List String) (freshFruit : String → Fruit) (st : ServerState),
        ((restart connected freshFruit st).1).comboCount = 0) := by
  refine ⟨?_, ?_, scoreMerge_comboCount_pos, ?_, ?_, ?_, ?_⟩
  · intro now st h1 h2
    simp [comboDecayTick, h1, h2]
  · intro now st h
    simp [comboDecayTick, h]
  · intro oracle gs h
    rw [checkForMerges_comboCount]
    obtain ⟨-, -, -, -, h5⟩ := checkForMerges_scan_inv oracle gs
    exact h5 h
  · intro socketId x playerName randPlayerFruit newPersonal uid now st
    by_cases h : st.gameOver <;> simp [handleDropFruit, h, dropFruit]
  · intro socketId personal st
    simp [handleConnect]
  · intro connected freshFruit st
    rfl

/-- Closed witness for `comboDecay_resets_and_is_sole_zeroing`: at a
state with a live combo of 3 and no merge for 5000 ms, a decay tick
zeroes the combo. -/
theorem comboDecay_resets_witness :
    ((5000 : Int) - (({ gsX with comboCount := 3 } : ServerState).lastMergeTime : Int)
        > COMBO_WINDOW) ∧
    0 < ({ gsX with comboCount := 3 } : ServerState).comboCount ∧
    (comboDecayTick 5000 { gsX with comboCount := 3 }).comboCount = 0 :=
  ⟨by decide, by decide,
    (comboDecay_resets_and_is_sole_zeroing.1 5000 { gsX with comboCount := 3 }
      (by decide) (by decide)).1⟩

end Suikiii
